import Mathlib

/-!
Verification development for the transitapp-enterprise-gis-pipeline repository.

Shallow embedding of the two pipeline modules the claims concern:
`src/transform_incremental_clean.py` (watermark-driven incremental extract,
deterministic row hashing, insert-only merge, state handling) and
`src/ingest_portal_to_sql_raw.py` (per-file enrichment with coordinate
validation and block-group spatial join).

Python values that flow through the row dictionaries are modelled by `PyVal`;
`str(v or "")` becomes `canonPart`, and the digest is a full executable
SHA-256 over the UTF-8 bytes of the joined parts, exactly as
`hashlib.sha256(s).hexdigest()` computes it.
-/

/-- Naive Python `datetime` (as used by `datetime.combine`, `timedelta` day
arithmetic and SQL `datetime2` values): a day number (days since the epoch,
matching `date.toordinal` up to a constant offset) and the second of the day.
`timedelta(days=k)` arithmetic only shifts `day`; comparison is
lexicographic on `(day, sod)`, as Python compares datetimes field by field. -/
structure PyDateTime where
  day : Int
  sod : Nat
deriving DecidableEq

/-- Values appearing in the pandas row dictionaries handed to
`sha256_rowhash` and friends: `None`, booleans, ints, floats (modelled as the
decimal rational that Python's shortest-round-trip `repr` denotes), the float
`nan` produced by `pd.to_numeric(..., errors="coerce")`, float infinities,
strings, and SQL datetime values (`pd.Timestamp`). -/
inductive PyVal where
  | none
  | bool (b : Bool)
  | int (n : Int)
  | float (q : ℚ)
  | nan
  | inf (neg : Bool)
  | str (s : String)
  | dt (t : PyDateTime)
deriving DecidableEq

/-- Python truthiness (`bool(v)`): `None`, `False`, numeric zero and the empty
string are falsy; `nan` and infinities are truthy (`nan != 0`). -/
def pyTruthy : PyVal → Bool
  | .none => false
  | .bool b => b
  | .int n => n != 0
  | .float q => q != 0
  | .nan => true
  | .inf _ => true
  | .str s => s != ""
  | .dt _ => true

/-- Render the fractional digits of a scaled decimal: `k` digits of `fp` with
leading zeros, trailing zeros stripped, at least one digit kept. -/
def fracDigits (k fp : Nat) : String :=
  let raw := toString fp
  let padded := String.mk (List.replicate (k - raw.length) '0') ++ raw
  let trimmed := (padded.data.reverse.dropWhile (· = '0')).reverse
  if trimmed.isEmpty then "0" else String.mk trimmed

/-- Python `str()` of a float, for floats whose shortest repr is a plain
decimal (every float a claim evaluates): render the rational exactly in
decimal. Rationals outside that range (denominator not dividing a power of
ten, i.e. not the value of any decimal literal) get a fallback rendering that
no claim ever evaluates. -/
def pyFloatStr (q : ℚ) : String :=
  match (List.range 40).find? (fun k => 10 ^ k % q.den = 0) with
  | some k =>
      let mag := (q.num.natAbs * 10 ^ k) / q.den
      (if q.num < 0 then "-" else "") ++ toString (mag / 10 ^ k) ++ "." ++ fracDigits k (mag % 10 ^ k)
  | Option.none => toString q.num ++ "#" ++ toString q.den

/-- Two-digit zero-padded rendering, for datetime `str()`. -/
def pad2 (n : Nat) : String :=
  if n < 10 then "0" ++ toString n else toString n

/-- Civil date (y, m, d) from an epoch day number (standard civil-from-days
conversion; all dates in this development are after the epoch, where Lean's
truncating `Int` division agrees with floor division). -/
def civilFromDays (z0 : Int) : Int × Nat × Nat :=
  let z := z0 + 719468
  let era := z / 146097
  let doe := z - era * 146097
  let yoe := (doe - doe / 1460 + doe / 36524 - doe / 146096) / 365
  let y := yoe + era * 400
  let doy := doe - (365 * yoe + yoe / 4 - yoe / 100)
  let mp := (5 * doy + 2) / 153
  let d := doy - (153 * mp + 2) / 5 + 1
  let m := if mp < 10 then mp + 3 else mp - 9
  (if mp < 10 then y else y + 1, m.toNat, d.toNat)

/-- Epoch day number from a civil date (standard days-from-civil conversion;
valid for the post-epoch dates this development uses). -/
def daysFromCivil (y : Int) (m d : Nat) : Int :=
  let yAdj : Int := if m ≤ 2 then y - 1 else y
  let era := yAdj / 400
  let yoe := yAdj - era * 400
  let mp : Int := if m > 2 then (m : Int) - 3 else (m : Int) + 9
  let doy := (153 * mp + 2) / 5 + d - 1
  let doe := yoe * 365 + yoe / 4 - yoe / 100 + doy
  era * 146097 + doe - 719468

/-- Python `str()` of a naive datetime / `pd.Timestamp` with whole seconds:
`YYYY-MM-DD HH:MM:SS`. -/
def pyDateTimeStr (t : PyDateTime) : String :=
  let (y, m, d) := civilFromDays t.day
  toString y ++ "-" ++ pad2 m ++ "-" ++ pad2 d ++ " " ++
    pad2 (t.sod / 3600) ++ ":" ++ pad2 (t.sod % 3600 / 60) ++ ":" ++ pad2 (t.sod % 60)

/-- Python `str(v)` on the modelled values. -/
def pyStr : PyVal → String
  | .none => "None"
  | .bool b => if b then "True" else "False"
  | .int n => toString n
  | .float q => pyFloatStr q
  | .nan => "nan"
  | .inf neg => if neg then "-inf" else "inf"
  | .str s => s
  | .dt t => pyDateTimeStr t

/-- One hash part, `str(row.get(k) or "")`: falsy values (a missing key gives
`None`) canonicalize to the empty string. -/
def canonPart (v : PyVal) : String :=
  if pyTruthy v then pyStr v else ""

/-! ### SHA-256 (FIPS 180-4), executable over byte lists

Machine words are `Nat` reduced mod `2 ^ 32` explicitly (`w32`). This is the
digest `hashlib.sha256` computes; the hex digest is the usual lowercase hex
of the 32 output bytes. -/

/-- Reduce to a 32-bit word. -/
def w32 (x : Nat) : Nat := x % 4294967296

/-- Right-rotate a 32-bit word by `n`. -/
def rotr32 (n x : Nat) : Nat := w32 ((x <<< (32 - n)) ||| (x >>> n))

/-- The big sigma-0 word mix of the compression function. -/
def mixA (x : Nat) : Nat := rotr32 2 x ^^^ rotr32 13 x ^^^ rotr32 22 x

/-- The big sigma-1 word mix of the compression function. -/
def mixE (x : Nat) : Nat := rotr32 6 x ^^^ rotr32 11 x ^^^ rotr32 25 x

/-- The small sigma-0 mix of the message schedule. -/
def mixW0 (x : Nat) : Nat := rotr32 7 x ^^^ rotr32 18 x ^^^ (x >>> 3)

/-- The small sigma-1 mix of the message schedule. -/
def mixW1 (x : Nat) : Nat := rotr32 17 x ^^^ rotr32 19 x ^^^ (x >>> 10)

/-- The 64 SHA-256 round constants (FIPS 180-4, written in decimal). -/
def sha256K : List Nat :=
  [1116352408, 1899447441, 3049323471, 3921009573, 961987163, 1508970993,
   2453635748, 2870763221, 3624381080, 310598401, 607225278, 1426881987,
   1925078388, 2162078206, 2614888103, 3248222580, 3835390401, 4022224774,
   264347078, 604807628, 770255983, 1249150122, 1555081692, 1996064986,
   2554220882, 2821834349, 2952996808, 3210313671, 3336571891, 3584528711,
   113926993, 338241895, 666307205, 773529912, 1294757372, 1396182291,
   1695183700, 1986661051, 2177026350, 2456956037, 2730485921, 2820302411,
   3259730800, 3345764771, 3516065817, 3600352804, 4094571909, 275423344,
   430227734, 506948616, 659060556, 883997877, 958139571, 1322822218,
   1537002063, 1747873779, 1955562222, 2024104815, 2227730452, 2361852424,
   2428436474, 2756734187, 3204031479, 3329325298]

/-- The SHA-256 initial hash state (FIPS 180-4, written in decimal). -/
def sha256H0 : List Nat :=
  [1779033703, 3144134277, 1013904242, 2773480762,
   1359893119, 2600822924, 528734635, 1541459225]

/-- `k` bytes of `n`, big-endian. -/
def beBytes : Nat → Nat → List Nat
  | 0, _ => []
  | k + 1, n => beBytes k (n >>> 8) ++ [n % 256]

/-- Merkle-Damgard padding: append `0x80`, zeros to 56 mod 64, then the
bit length as 8 big-endian bytes. -/
def sha256Pad (msg : List Nat) : List Nat :=
  let L := msg.length
  let zeros := (119 - L % 64) % 64
  msg ++ 0x80 :: List.replicate zeros 0 ++ beBytes 8 (L * 8)

/-- Group bytes into big-endian 32-bit words. -/
def bytesToWords : List Nat → List Nat
  | b0 :: b1 :: b2 :: b3 :: rest =>
      ((((b0 <<< 8) ||| b1) <<< 16) ||| ((b2 <<< 8) ||| b3)) :: bytesToWords rest
  | _ => []

/-- Split a word list into 16-word blocks (`fuel` bounds the recursion). -/
def toBlocks : Nat → List Nat → List (List Nat)
  | 0, _ => []
  | _ + 1, [] => []
  | fuel + 1, ws => ws.take 16 :: toBlocks fuel (ws.drop 16)

/-- Extend the message schedule: `acc` holds the words produced so far in
reverse; each step prepends the next scheduled word. -/
def extendSched : Nat → List Nat → List Nat
  | 0, acc => acc
  | n + 1, acc =>
      let g := fun i => acc.getD i 0
      extendSched n (w32 (mixW1 (g 1) + g 6 + mixW0 (g 14) + g 15) :: acc)

/-- The 64-word message schedule of one block. -/
def sha256Schedule (block : List Nat) : List Nat :=
  (extendSched 48 block.reverse).reverse

/-- One compression round: state is `[a,b,c,d,e,f,g,h]`, input the round
constant paired with the scheduled word. -/
def sha256Round (st : List Nat) (kw : Nat × Nat) : List Nat :=
  let va := st.getD 0 0
  let vb := st.getD 1 0
  let vc := st.getD 2 0
  let vd := st.getD 3 0
  let ve := st.getD 4 0
  let vf := st.getD 5 0
  let vg := st.getD 6 0
  let vh := st.getD 7 0
  let chWord := (ve &&& vf) ^^^ ((ve ^^^ 4294967295) &&& vg)
  let majWord := (va &&& vb) ^^^ (va &&& vc) ^^^ (vb &&& vc)
  let t1 := w32 (vh + mixE ve + chWord + kw.1 + kw.2)
  let t2 := w32 (mixA va + majWord)
  [w32 (t1 + t2), va, vb, vc, w32 (vd + t1), ve, vf, vg]

/-- Compress one 16-word block into the running hash state. -/
def sha256Compress (h : List Nat) (block : List Nat) : List Nat :=
  let st := (sha256K.zip (sha256Schedule block)).foldl sha256Round h
  (h.zip st).map (fun p => w32 (p.1 + p.2))

/-- SHA-256 digest (32 bytes) of a byte list. -/
def sha256Bytes (msg : List Nat) : List Nat :=
  let ws := bytesToWords (sha256Pad msg)
  ((toBlocks ws.length ws).foldl sha256Compress sha256H0).foldr
    (fun wAcc acc => beBytes 4 wAcc ++ acc) []

/-- UTF-8 bytes of one character (as `str.encode("utf-8")` emits them). -/
def utf8Char (c : Char) : List Nat :=
  let n := c.toNat
  if n < 0x80 then [n]
  else if n < 0x800 then [0xc0 ||| (n >>> 6), 0x80 ||| (n &&& 0x3f)]
  else if n < 0x10000 then
    [0xe0 ||| (n >>> 12), 0x80 ||| ((n >>> 6) &&& 0x3f), 0x80 ||| (n &&& 0x3f)]
  else
    [0xf0 ||| (n >>> 18), 0x80 ||| ((n >>> 12) &&& 0x3f),
     0x80 ||| ((n >>> 6) &&& 0x3f), 0x80 ||| (n &&& 0x3f)]

/-- UTF-8 encoding of a string. -/
def strBytes (s : String) : List Nat :=
  s.data.foldr (fun c acc => utf8Char c ++ acc) []

/-- Lowercase hex digit. -/
def hexDigit (n : Nat) : Char :=
  if n < 10 then Char.ofNat (48 + n) else Char.ofNat (87 + n)

/-- Lowercase hex rendering of a byte list (`hexdigest()`). -/
def bytesToHex (bs : List Nat) : String :=
  String.mk (bs.foldr (fun b acc => hexDigit (b / 16) :: hexDigit (b % 16) :: acc) [])

/-- `hashlib.sha256(s.encode("utf-8")).hexdigest()`. -/
def sha256Hex (s : String) : String :=
  bytesToHex (sha256Bytes (strBytes s))

/-! ### Content hasher (`sha256_rowhash`, transform_incremental_clean.py lines 205-229)

The function receives a row dictionary and reads exactly 16 keys with
`row.get(k)`; a missing key yields `None`. `HashRow` models that dictionary
restricted to the 16 read keys, in the order the source lists them. -/

/-- The 16 business fields `sha256_rowhash` reads, in source order. -/
structure HashRow where
  user_trip_id : PyVal
  start_time : PyVal
  end_time : PyVal
  start_longitude : PyVal
  start_latitude : PyVal
  end_longitude : PyVal
  end_latitude : PyVal
  service_name : PyVal
  route_short_name : PyVal
  modeOf : PyVal
  start_stop_name : PyVal
  end_stop_name : PyVal
  source_file : PyVal
  file_date_raw : PyVal
  origin_bg : PyVal
  dest_bg : PyVal
deriving DecidableEq

/-- Names for the 16 hashed fields (to quantify over single-field changes). -/
inductive HField where
  | userTripId | startTime | endTime
  | startLongitude | startLatitude | endLongitude | endLatitude
  | serviceName | routeShortName | modeField | startStopName | endStopName
  | sourceFile | fileDateRaw | originBG | destBG
deriving DecidableEq

def getField (r : HashRow) : HField → PyVal
  | .userTripId => r.user_trip_id
  | .startTime => r.start_time
  | .endTime => r.end_time
  | .startLongitude => r.start_longitude
  | .startLatitude => r.start_latitude
  | .endLongitude => r.end_longitude
  | .endLatitude => r.end_latitude
  | .serviceName => r.service_name
  | .routeShortName => r.route_short_name
  | .modeField => r.modeOf
  | .startStopName => r.start_stop_name
  | .endStopName => r.end_stop_name
  | .sourceFile => r.source_file
  | .fileDateRaw => r.file_date_raw
  | .originBG => r.origin_bg
  | .destBG => r.dest_bg

def setField (r : HashRow) (f : HField) (v : PyVal) : HashRow :=
  match f with
  | .userTripId => { r with user_trip_id := v }
  | .startTime => { r with start_time := v }
  | .endTime => { r with end_time := v }
  | .startLongitude => { r with start_longitude := v }
  | .startLatitude => { r with start_latitude := v }
  | .endLongitude => { r with end_longitude := v }
  | .endLatitude => { r with end_latitude := v }
  | .serviceName => { r with service_name := v }
  | .routeShortName => { r with route_short_name := v }
  | .modeField => { r with modeOf := v }
  | .startStopName => { r with start_stop_name := v }
  | .endStopName => { r with end_stop_name := v }
  | .sourceFile => { r with source_file := v }
  | .fileDateRaw => { r with file_date_raw := v }
  | .originBG => { r with origin_bg := v }
  | .destBG => { r with dest_bg := v }

/-- Position of each field in the `parts` list of the source. -/
def fieldIndex : HField → Nat
  | .userTripId => 0
  | .startTime => 1
  | .endTime => 2
  | .startLongitude => 3
  | .startLatitude => 4
  | .endLongitude => 5
  | .endLatitude => 6
  | .serviceName => 7
  | .routeShortName => 8
  | .modeField => 9
  | .startStopName => 10
  | .endStopName => 11
  | .sourceFile => 12
  | .fileDateRaw => 13
  | .originBG => 14
  | .destBG => 15

/-- The `parts` list built by `sha256_rowhash`: `str(row.get(k) or "")` for
each of the 16 keys, in source order. -/
def rowParts (r : HashRow) : List String :=
  [canonPart r.user_trip_id, canonPart r.start_time, canonPart r.end_time,
   canonPart r.start_longitude, canonPart r.start_latitude,
   canonPart r.end_longitude, canonPart r.end_latitude,
   canonPart r.service_name, canonPart r.route_short_name, canonPart r.modeOf,
   canonPart r.start_stop_name, canonPart r.end_stop_name,
   canonPart r.source_file, canonPart r.file_date_raw,
   canonPart r.origin_bg, canonPart r.dest_bg]

/-- Python `"|".join(parts)`. -/
def pyJoin : List String → String
  | [] => ""
  | [x] => x
  | x :: y :: rest => x ++ "|" ++ pyJoin (y :: rest)

/-- The exact byte string hashed: the parts joined with `"|"`
(`errors="ignore"` on the UTF-8 encode is vacuous: every modelled string
encodes). -/
def rowHashInput (r : HashRow) : String :=
  pyJoin (rowParts r)

/-- `sha256_rowhash` (transform_incremental_clean.py lines 205-229). -/
def sha256_rowhash (r : HashRow) : String :=
  sha256Hex (rowHashInput r)

/-! ### Watermark and incremental boundary (lines 93-101, 160-170) -/

/-- `datetime.combine(d, time.min)`: midnight of the given day. -/
def combineMidnight (day : Int) : PyDateTime := ⟨day, 0⟩

/-- `dtval - timedelta(days=k)`: `timedelta` day arithmetic shifts the day
number and keeps the time of day (naive datetimes, no DST). -/
def subDays (t : PyDateTime) (k : Nat) : PyDateTime := ⟨t.day - k, t.sod⟩

/-- `compute_since` (lines 160-170). The state's `last_file_dt` string is
parsed by `datetime.fromisoformat`; since the string was produced by
`isoformat` of the watermark datetime, the round trip is the identity and the
argument is modelled as the datetime itself (`Option.none` = no prior state). -/
def compute_since (last_file_dt : Option PyDateTime) (rolling_days overlap_days : Nat)
    (today : Int) : PyDateTime :=
  match last_file_dt with
  | Option.none => combineMidnight (today - rolling_days)
  | some w => subDays w overlap_days

/-- Python datetime `<=` (lexicographic on day then second-of-day), as a
decidable proposition. -/
def dtLE (a b : PyDateTime) : Prop :=
  a.day < b.day ∨ (a.day = b.day ∧ a.sod ≤ b.sod)

instance : DecidablePred fun p : PyDateTime × PyDateTime => dtLE p.1 p.2 :=
  fun _ => by unfold dtLE; infer_instance

instance (a b : PyDateTime) : Decidable (dtLE a b) := by unfold dtLE; infer_instance

/-- Boolean datetime comparison used inside executable filters. -/
def dtLEb (a b : PyDateTime) : Bool := decide (dtLE a b)

/-- `max` of two datetimes. -/
def dtMax (a b : PyDateTime) : PyDateTime := if dtLEb a b then b else a

/-! ### Datetime and numeric parsing (pandas `to_datetime` / `to_numeric`)

`pd.to_datetime(..., errors="coerce", utc=True)` followed by
`.dt.tz_convert(None)` yields naive UTC instants; unparseable input coerces
to `NaT` (`Option.none`). The parser models the ISO-8601 shapes the pipeline
feeds it: `YYYY-MM-DD`, and `YYYY-MM-DD{ |T}HH:MM:SS` with an optional UTC
suffix (`Z` or `+00:00`, both denoting the same instant as the bare naive
form). -/

def digVal (c : Char) : Nat := c.toNat - 48

def isDig (c : Char) : Bool := 48 ≤ c.toNat && c.toNat ≤ 57

/-- Build a datetime from date digit characters and a second-of-day. -/
def mkDT (y1 y2 y3 y4 m1 m2 d1 d2 : Char) (sod : Nat) : Option PyDateTime :=
  if [y1, y2, y3, y4, m1, m2, d1, d2].all isDig then
    let y : Int := (1000 * digVal y1 + 100 * digVal y2 + 10 * digVal y3 + digVal y4 : Nat)
    let m := 10 * digVal m1 + digVal m2
    let d := 10 * digVal d1 + digVal d2
    if 1 ≤ m ∧ m ≤ 12 ∧ 1 ≤ d ∧ d ≤ 31 then some ⟨daysFromCivil y m d, sod⟩
    else Option.none
  else Option.none

/-- Build a second-of-day from time digit characters. -/
def mkTime (h1 h2 mi1 mi2 s1 s2 : Char) : Option Nat :=
  if [h1, h2, mi1, mi2, s1, s2].all isDig then
    let h := 10 * digVal h1 + digVal h2
    let mi := 10 * digVal mi1 + digVal mi2
    let s := 10 * digVal s1 + digVal s2
    if h ≤ 23 ∧ mi ≤ 59 ∧ s ≤ 59 then some (3600 * h + 60 * mi + s) else Option.none
  else Option.none

/-- Parse an ISO-8601-shaped datetime string to a naive UTC instant. -/
def parseDTString (s : String) : Option PyDateTime :=
  match s.data with
  | [y1, y2, y3, y4, '-', m1, m2, '-', d1, d2] => mkDT y1 y2 y3 y4 m1 m2 d1 d2 0
  | y1 :: y2 :: y3 :: y4 :: '-' :: m1 :: m2 :: '-' :: d1 :: d2 :: sep ::
      h1 :: h2 :: ':' :: mi1 :: mi2 :: ':' :: s1 :: s2 :: rest =>
    if (sep = ' ' || sep = 'T') &&
        (rest = [] || rest = ['Z'] || rest = ['+', '0', '0', ':', '0', '0']) then
      match mkTime h1 h2 mi1 mi2 s1 s2 with
      | some sod => mkDT y1 y2 y3 y4 m1 m2 d1 d2 sod
      | Option.none => Option.none
    else Option.none
  | _ => Option.none

/-- `pd.to_datetime(v, errors="coerce", utc=True)` normalized to a naive UTC
instant; `NaT` is `Option.none`. Datetime values pass through; numeric
epoch-nanosecond interpretation is not modelled (no claim feeds numerics to
the datetime parser). -/
def pdToDatetime : PyVal → Option PyDateTime
  | .dt t => some t
  | .str s => parseDTString s
  | _ => Option.none

/-- Digits of a nonempty all-digit character list, as a number. -/
def digitsNat (cs : List Char) : Option Nat :=
  if cs ≠ [] ∧ cs.all isDig then
    some (cs.foldl (fun a c => 10 * a + digVal c) 0)
  else Option.none

/-- Parse a plain signed decimal literal to a rational. -/
def parseDecQ (s : String) : Option ℚ :=
  let signed : Bool × List Char :=
    match s.data with
    | '-' :: rest => (true, rest)
    | '+' :: rest => (false, rest)
    | l => (false, l)
  let body := signed.2
  let ip := body.takeWhile (· ≠ '.')
  let q : Option ℚ :=
    match body.dropWhile (· ≠ '.') with
    | [] => (digitsNat ip).map (fun n => (n : ℚ))
    | '.' :: fp =>
      match digitsNat ip, digitsNat fp with
      | some n, some f => some ((n : ℚ) + (f : ℚ) / (10 : ℚ) ^ fp.length)
      | _, _ => Option.none
    | _ => Option.none
  q.map (fun v => if signed.1 then -v else v)

/-- `pd.to_numeric(v, errors="coerce")`, value-wise: numerics pass through,
`None`/`NaN` and unparseable strings coerce to `NaN`, plain decimal strings
parse. (Column-level dtype promotion and exotic numeric syntaxes are not
exercised by any claim.) -/
def pyToNumeric : PyVal → PyVal
  | .none => .nan
  | .nan => .nan
  | .float q => .float q
  | .inf b => .inf b
  | .int n => .int n
  | .bool b => if b then .int 1 else .int 0
  | .dt _ => .nan
  | .str s =>
    match parseDecQ s with
    | some q => .float q
    | Option.none => .nan

/-- `.astype("string")`: values become their `str()` rendering, missing
values (`None`/`NaN`) become `pd.NA`, modelled as `.none`. A `pd.NA` that
reaches `v or ""` raises `TypeError` (boolean value of NA is ambiguous);
`cleanRow` models that raise by checking these fields before hashing. -/
def astypeString : PyVal → PyVal
  | .none => .none
  | .nan => .none
  | .str s => .str s
  | v => .str (pyStr v)

/-- `out.replace([np.inf, -np.inf], np.nan)` (line 296), value-wise. -/
def replaceInf : PyVal → PyVal
  | .inf _ => .nan
  | v => v

/-! ### Raw rows, canonical rows, transform (lines 173-198, 232-298) -/

/-- One row of the `fetch_new_raw` result frame (the 18 selected columns of
`mobility.raw_leg_trips`), values as they come from SQL. -/
structure RawRow where
  user_trip_id : PyVal
  start_time : PyVal
  end_time : PyVal
  start_longitude : PyVal
  start_latitude : PyVal
  end_longitude : PyVal
  end_latitude : PyVal
  service_name : PyVal
  route_short_name : PyVal
  modeOf : PyVal
  start_stop_name : PyVal
  end_stop_name : PyVal
  source_file : PyVal
  file_date_raw : PyVal
  manhattan_distance_mi : PyVal
  euclidean_distance_mi : PyVal
  origin_bg : PyVal
  dest_bg : PyVal
deriving DecidableEq

/-- Errors of the transform/load path (each models a Python exception or
SQL error surfacing in `run`). -/
inductive PErr where
  | fetchFail
  | naValue
  | dupHash
  | refreshFail
deriving DecidableEq

/-- One row of the output frame of `clean_transform` (lines 263-290), i.e.
the staged shape merged into `mobility.LegTrips_Clean`. -/
structure CRow where
  row_hash_hex : String
  user_trip_id : PyVal
  trip_date : Int
  start_time_utc : Option PyDateTime
  end_time_utc : Option PyDateTime
  start_longitude : PyVal
  start_latitude : PyVal
  end_longitude : PyVal
  end_latitude : PyVal
  service_name : PyVal
  route_short_name : PyVal
  modeOf : PyVal
  start_stop_name : PyVal
  end_stop_name : PyVal
  source_file : PyVal
  file_date_raw : PyVal
  manhattan_distance_mi : PyVal
  euclidean_distance_mi : PyVal
  origin_bg : PyVal
  dest_bg : PyVal
deriving DecidableEq

/-- Transform one raw row (the per-row content of `clean_transform`,
lines 239-298): numeric/string coercions happen before hashing, the hash is
computed over the coerced row dictionary (raw `start_time`/`end_time`/labels,
coerced coordinates, astyped identifiers), and a row whose `trip_date` failed
to parse is dropped (`Option.none`) after hashing. A missing astyped
identifier reaches `v or ""` as `pd.NA` and raises, modelled as `.error`. -/
def cleanRow (r : RawRow) : Except PErr (Option CRow) :=
  let trip_date := (pdToDatetime r.file_date_raw).map PyDateTime.day
  let stu := pdToDatetime r.start_time
  let etu := pdToDatetime r.end_time
  let slon := pyToNumeric r.start_longitude
  let slat := pyToNumeric r.start_latitude
  let elon := pyToNumeric r.end_longitude
  let elat := pyToNumeric r.end_latitude
  let man := pyToNumeric r.manhattan_distance_mi
  let euc := pyToNumeric r.euclidean_distance_mi
  let uid := astypeString r.user_trip_id
  let obg := astypeString r.origin_bg
  let dbg := astypeString r.dest_bg
  let sf := astypeString r.source_file
  if uid = PyVal.none ∨ obg = PyVal.none ∨ dbg = PyVal.none ∨ sf = PyVal.none then
    .error .naValue
  else
    let h := sha256_rowhash ⟨uid, r.start_time, r.end_time, slon, slat, elon, elat,
      r.service_name, r.route_short_name, r.modeOf, r.start_stop_name, r.end_stop_name,
      sf, r.file_date_raw, obg, dbg⟩
    match trip_date with
    | Option.none => .ok Option.none
    | some d => .ok (some
        ⟨h, uid, d, stu, etu,
         replaceInf slon, replaceInf slat, replaceInf elon, replaceInf elat,
         r.service_name, r.route_short_name, r.modeOf,
         r.start_stop_name, r.end_stop_name,
         sf, r.file_date_raw, replaceInf man, replaceInf euc, obg, dbg⟩)

/-- `clean_transform` (lines 232-298): per-row transform in order, rows with
unparseable `trip_date` removed at the end. -/
def clean_transform (raw : List RawRow) : Except PErr (List CRow) :=
  (raw.mapM cleanRow).map (List.filterMap id)

/-! ### Insert-only merge (`upsert_legtrips_clean`, lines 305-420) -/

/-- The staged rows whose `row_hash` is absent from the target: exactly the
rows the `MERGE ... WHEN NOT MATCHED BY TARGET THEN INSERT` statement
(lines 398-418) inserts, each source row being matched against the target as
of the start of the statement. -/
def freshRows (store batch : List CRow) : List CRow :=
  batch.filter (fun r => !(store.any (fun t => t.row_hash_hex == r.row_hash_hex)))

/-- Modelled from the spec: the DDL of the canonical table
`mobility.LegTrips_Clean` is not in the repository; spec section 6 declares
`content_hash (32-byte binary, unique)`. A `MERGE` that inserts two rows
with the same hash therefore raises a unique-index violation; this predicate
is the success condition of the statement. -/
def uniqueHashOK (rows : List CRow) : Prop :=
  (rows.map CRow.row_hash_hex).Nodup

instance (rows : List CRow) : Decidable (uniqueHashOK rows) := by
  unfold uniqueHashOK; infer_instance

/-- `upsert_legtrips_clean` (lines 305-420) acting on the canonical store:
stage the batch, then `MERGE` inserting exactly the staged rows whose
`row_hash` is not already present (hex/varbinary conversion is injective on
the fixed-format digests, so matching on the hex string is the same join).
Chunked staging does not change the merged outcome. The result is the new
store contents; a unique-index violation is an error. -/
def upsert_legtrips_clean (store batch : List CRow) : Except PErr (List CRow) :=
  if uniqueHashOK (freshRows store batch) then
    .ok (store ++ freshRows store batch)
  else .error .dupHash

/-- One run-level merge as the store observes it: on error the surrounding
transaction is rolled back (`run`, lines 485-488), so the store is unchanged. -/
def applyMergeRun (store batch : List CRow) : List CRow :=
  match upsert_legtrips_clean store batch with
  | .ok s2 => s2
  | .error _ => store

/-! ### Incremental extract and watermark advance (lines 173-198, 448-491) -/

/-- The `file_date` value of a raw row (`file_date_raw` is `file_date`
aliased; the raw-store column is a SQL datetime). -/
def rowFileDate (r : RawRow) : Option PyDateTime :=
  pdToDatetime r.file_date_raw

/-- `fetch_new_raw` (lines 173-198): all raw rows with `file_date >= since`
(SQL `NULL` compares false). -/
def fetch_new_raw (store : List RawRow) (since : PyDateTime) : List RawRow :=
  store.filter (fun r =>
    match rowFileDate r with
    | some d => dtLEb since d
    | Option.none => false)

/-- `pd.to_datetime(raw["file_date_raw"], errors="coerce").max()`: maximum of
the parseable file dates, `NaT` (`Option.none`) if none. -/
def maxParsed (rows : List RawRow) : Option PyDateTime :=
  match rows.filterMap rowFileDate with
  | [] => Option.none
  | d :: ds => some (ds.foldl dtMax d)

/-- The watermark update of `run` (lines 476-479): `last_file_dt` is
rewritten only if the fetch was nonempty and the max file date is not `NaT`. -/
def nextLastFileDate (raw : List RawRow) (prev : Option PyDateTime) : Option PyDateTime :=
  if raw.isEmpty then prev
  else
    match maxParsed raw with
    | Option.none => prev
    | some m => some m

/-- The watermark JSON state (`{last_file_dt, last_run_utc}`, lines 93-101). -/
structure Watermark where
  lastFileDt : Option PyDateTime
  lastRunUtc : Option Int
deriving DecidableEq

/-- Durable state a run touches: the canonical store (inside the SQL
transaction) and the watermark state file. -/
structure PipeState where
  store : List CRow
  wm : Watermark
deriving DecidableEq

/-- `run` (lines 448-491) over the durable state. External effects enter as
parameters: `rawStore` is the raw table contents, `fetchRes`/`refreshRes` the
outcomes of the SQL round trips for extraction and
`usp_Refresh_Rolling31_Aggregates`, `today`/`nowUtc` the clock reads. The
transaction commits only after merge and refresh succeed; on any error the
`except` branch rolls the transaction back and returns before `save_state`,
so the durable state is exactly the input. -/
def runPipeline (rolling overlap : Nat) (rawStore : List RawRow) (today : Int)
    (fetchRes refreshRes : Except PErr Unit) (nowUtc : Int) (w : PipeState) :
    PipeState × Option PErr :=
  let since := compute_since w.wm.lastFileDt rolling overlap today
  match fetchRes with
  | .error e => (w, some e)
  | .ok _ =>
    let raw := fetch_new_raw rawStore since
    match clean_transform raw with
    | .error e => (w, some e)
    | .ok clean =>
      match upsert_legtrips_clean w.store clean with
      | .error e => (w, some e)
      | .ok store2 =>
        match refreshRes with
        | .error e => (w, some e)
        | .ok _ =>
          (⟨store2, ⟨nextLastFileDate raw w.wm.lastFileDt, some nowUtc⟩⟩, Option.none)

/-- The `last_file_dt` component of one successful run
(same `nextLastFileDate`/`fetch_new_raw`/`compute_since` as `runPipeline`). -/
def runWatermark (store : List RawRow) (today : Int) (rolling overlap : Nat)
    (w : Option PyDateTime) : Option PyDateTime :=
  nextLastFileDate (fetch_new_raw store (compute_since w rolling overlap today)) w

/-- Observable inputs of one run in a sequence of runs. -/
structure RunStep where
  rawStore : List RawRow
  today : Int

/-- Watermark after a sequence of successful runs. -/
def runSeqWatermark (rolling overlap : Nat) : Option PyDateTime → List RunStep → Option PyDateTime
  | w, [] => w
  | w, s :: rest => runSeqWatermark rolling overlap (runWatermark s.rawStore s.today rolling overlap w) rest

/-! ### Ingest module (`ingest_portal_to_sql_raw.py`)

Only the parts the claims concern are embedded: the per-file enrichment
(coordinate-column validation, numeric coercion + `dropna`, and the
block-group spatial join with its column assignment) and the per-file loop of
`run` (lines 310-331). Portal listing/download, the distance computation
(an external CRS projection) and the SQL append are outside every claim; the
distance step cannot fail on rows that survive the coordinate `dropna`. -/

/-- A geographic point (lon, lat); float coordinates as exact rationals. -/
abbrev PPoint := ℚ × ℚ

/-- One entry of the loaded block-group layer: the retained id attribute and
the polygon, abstracted to its decidable `within` predicate. -/
structure AreaPoly where
  code : String
  containsQ : PPoint → Bool

/-- The four expected coordinate columns (line 207). -/
def coordCols : List String := ["start_longitude", "start_latitude", "end_longitude", "end_latitude"]

/-- A CSV row: association list from column name to value. -/
abbrev PRow := List (String × PyVal)

/-- A parsed CSV frame: its column set and its rows. -/
structure Frame where
  cols : List String
  rows : List PRow
deriving DecidableEq

/-- Cell access (`df[c]` for one row). -/
def colVal (r : PRow) (c : String) : PyVal :=
  (r.lookup c).getD .none

/-- Missing-value test after numeric coercion (`dropna` drops `NaN`). -/
def isNA : PyVal → Bool
  | .none => true
  | .nan => true
  | _ => false

/-- A row survives `df.dropna(subset=coord_cols)` after
`pd.to_numeric(..., errors="coerce")` on the four coordinate columns
(lines 207-213). -/
def coordsOK (r : PRow) : Bool :=
  coordCols.all (fun c => !(isNA (pyToNumeric (colVal r c))))

/-- Numeric value of a coerced coordinate cell (only applied to cells that
passed `coordsOK`, hence floats). -/
def getQ : PyVal → ℚ
  | .float q => q
  | _ => 0

/-- Origin point of a row (`points_from_xy(start_longitude, start_latitude)`). -/
def origPoint (r : PRow) : PPoint :=
  (getQ (pyToNumeric (colVal r "start_longitude")), getQ (pyToNumeric (colVal r "start_latitude")))

/-- Destination point of a row. -/
def destPoint (r : PRow) : PPoint :=
  (getQ (pyToNumeric (colVal r "end_longitude")), getQ (pyToNumeric (colVal r "end_latitude")))

/-- The polygons of the layer strictly containing a point, in stored order. -/
def matchesFor (layer : List AreaPoly) (p : PPoint) : List AreaPoly :=
  layer.filter (fun a => a.containsQ p)

/-- The id column of `gpd.sjoin(pts, bg, how="left", predicate="within")`
after `sort_index()` (lines 239-251): one output row per (point, containing
polygon) pair, grouped by point in input order, and a single null row for a
point no polygon contains. -/
def sjoinLeftCodes (pts : List PPoint) (layer : List AreaPoly) : List (Option String) :=
  (pts.map (fun p =>
    match matchesFor layer p with
    | [] => [Option.none]
    | ms => ms.map (fun a => some a.code))).flatten

/-- Errors of `enrich_file_dataframe`: the `KeyError` for a structurally
missing coordinate column (lines 208-210), and the pandas `ValueError` when
the joined id column's length does not match the frame on assignment
(lines 243-244 / 250-251, one joined row per containment match). -/
inductive EErr where
  | missingColumn
  | lenMismatch
deriving DecidableEq

/-- An enriched output row: the surviving input row with its assigned
block-group codes (null when no polygon contains the point). -/
structure ERow where
  row : PRow
  origin_bg : Option String
  dest_bg : Option String
deriving DecidableEq

/-- `enrich_file_dataframe` (lines 190-257) restricted to the stages the
claims concern: validate the four coordinate columns (missing column is
fatal for the file), coerce and drop rows with missing coordinates, return
the empty frame early if nothing survives, then assign `Origin_BG` and
`Dest_BG` from the left spatial join; the assignment requires the joined
column to have exactly one row per surviving row. -/
def enrich_file_dataframe (f : Frame) (layer : List AreaPoly) : Except EErr (List ERow) :=
  if coordCols.all (fun c => f.cols.contains c) then
    let kept := f.rows.filter coordsOK
    if kept.isEmpty then .ok []
    else
      let ocodes := sjoinLeftCodes (kept.map origPoint) layer
      if ocodes.length = kept.length then
        let dcodes := sjoinLeftCodes (kept.map destPoint) layer
        if dcodes.length = kept.length then
          .ok ((kept.zip (ocodes.zip dcodes)).map (fun p => ⟨p.1, p.2.1, p.2.2⟩))
        else .error .lenMismatch
      else .error .lenMismatch
  else .error .missingColumn

/-- One downloaded file: its name and its parsed CSV (`Option.none` when
`pd.read_csv` raised, the only exception the loop catches). -/
structure SrcFile where
  fname : String
  content : Option Frame

/-- The per-file loop of `run` (lines 310-331), accumulating the inserted-row
count: a CSV parse failure is caught, warned about and skipped; an empty
enrichment result is skipped; any exception out of `enrich_file_dataframe`
propagates and aborts the whole run (the `try` wraps only `pd.read_csv`). -/
def ingestRunAux (layer : List AreaPoly) : List SrcFile → Nat → Except EErr Nat
  | [], total => .ok total
  | f :: rest, total =>
    match f.content with
    | Option.none => ingestRunAux layer rest total
    | some frame =>
      match enrich_file_dataframe frame layer with
      | .error e => .error e
      | .ok [] => ingestRunAux layer rest total
      | .ok rows => ingestRunAux layer rest (total + rows.length)

/-- `run` of the ingest module over the new files of this run. -/
def ingestRun (files : List SrcFile) (layer : List AreaPoly) : Except EErr Nat :=
  ingestRunAux layer files 0

/-! ### Concrete sample data used by witnesses and counterexamples -/

/-- A sample hashed row dictionary (labels and coordinates missing). -/
def sampleRow : HashRow :=
  ⟨.str "trip-1", .str "2024-01-05 06:00:00", .none, .none, .none, .none, .none,
   .none, .none, .none, .none, .none, .str "f.csv", .str "2024-01-05", .none, .none⟩

/-- A canonical row with a given content hash (all other fields empty). -/
def crow (h : String) : CRow :=
  ⟨h, .none, 0, Option.none, Option.none, .none, .none, .none, .none,
   .none, .none, .none, .none, .none, .none, .none, .none, .none, .none, .none⟩

/-- A raw row whose `start_time` string is the given text (all optional
fields absent, identifiers present). -/
def rawTimeRow (st : String) : RawRow :=
  ⟨.str "t1", .str st, .none, .none, .none, .none, .none,
   .none, .none, .none, .none, .none, .str "f.csv", .str "2024-01-05",
   .none, .none, .str "a", .str "b"⟩

/-- The canonical rows produced from two raw rows whose `start_time` strings
differ textually but denote the same instant. -/
def cleanedPair : List CRow :=
  match clean_transform [rawTimeRow "2024-01-05 06:00:00", rawTimeRow "2024-01-05T06:00:00"] with
  | .ok l => l
  | .error _ => []

/-- A CSV row with all four coordinates present (at the origin). -/
def goodCsvRow : PRow :=
  [("start_longitude", .float 0), ("start_latitude", .float 0),
   ("end_longitude", .float 0), ("end_latitude", .float 0)]

/-- A parseable frame with the four coordinate columns and one valid row. -/
def goodFrame : Frame := ⟨coordCols, [goodCsvRow]⟩

/-- A parseable frame structurally missing the `end_latitude` column. -/
def badFrame : Frame := ⟨["start_longitude", "start_latitude", "end_longitude"], []⟩

/-- A polygon containing every point, with the given area code. -/
def allPoly (c : String) : AreaPoly := ⟨c, fun _ => true⟩

/-- A raw-store row carrying only a `file_date` (midnight of day `d`). -/
def dateOnlyRow (d : Int) : RawRow :=
  ⟨.none, .none, .none, .none, .none, .none, .none,
   .none, .none, .none, .none, .none, .none, .dt ⟨d, 0⟩,
   .none, .none, .none, .none⟩

/-- A two-run append-only trace for the watermark witness. -/
def stepA : RunStep := ⟨[dateOnlyRow 100], 200⟩

def stepB : RunStep := ⟨[dateOnlyRow 100, dateOnlyRow 120], 220⟩

/-! ### Watermark-trace predicates -/

/-- Order on optional watermarks: a set watermark may only move to a later
(or equal) instant; an absent watermark is below everything. -/
def wmLE (a b : Option PyDateTime) : Prop :=
  ∀ d, a = some d → ∃ e, b = some e ∧ dtLE d e

/-- A set watermark is witnessed by a raw-store row carrying exactly that
file date (true of every watermark the pipeline itself writes, since it
writes the max of the fetched file dates). -/
def Witnessed (store : List RawRow) (w : Option PyDateTime) : Prop :=
  ∀ d, w = some d → ∃ r, r ∈ store ∧ rowFileDate r = some d

/-- The starting watermark is witnessed in the first run's raw store. -/
def WitnessedIn (w : Option PyDateTime) : List RunStep → Prop
  | [] => True
  | s :: _ => Witnessed s.rawStore w

/-- The raw store only grows across the runs (append-only). -/
def AppendChain (steps : List RunStep) : Prop :=
  List.Chain' (fun a b => a.rawStore ⊆ b.rawStore) steps

/-! ### Helper lemmas: the joined hash input is injective in a single part -/

lemma strAppendLeftCancel (p a b : String) (h : p ++ a = p ++ b) : a = b := by
  apply String.ext
  have hd := congrArg String.data h
  simp only [String.data_append] at hd
  exact List.append_cancel_left hd

lemma strAppendRightCancel (a b s : String) (h : a ++ s = b ++ s) : a = b := by
  apply String.ext
  have hd := congrArg String.data h
  simp only [String.data_append] at hd
  exact List.append_cancel_right hd

lemma pyJoin_cons (x : String) (L : List String) (h : L ≠ []) :
    pyJoin (x :: L) = x ++ "|" ++ pyJoin L := by
  cases L with
  | nil => exact absurd rfl h
  | cons y ys => rfl

lemma pyJoin_set_ne : ∀ (L : List String) (i : Nat) (a : String),
    i < L.length → a ≠ L.getD i "" → pyJoin (L.set i a) ≠ pyJoin L := by
  intro L
  induction L with
  | nil => intro i a hi _; exact absurd hi (by simp)
  | cons x t ih =>
    intro i a hi hne
    cases i with
    | zero =>
      simp only [List.getD_cons_zero] at hne
      cases t with
      | nil => simpa [pyJoin] using hne
      | cons y ys =>
        rw [List.set_cons_zero, pyJoin_cons a (y :: ys) (by simp), pyJoin_cons x (y :: ys) (by simp)]
        intro he
        exact hne (strAppendRightCancel _ _ _ (strAppendRightCancel _ _ _ he))
    | succ j =>
      simp only [List.length_cons, Nat.succ_lt_succ_iff] at hi
      simp only [List.getD_cons_succ] at hne
      have ht : t ≠ [] := by
        cases t with
        | nil => exact absurd hi (by simp)
        | cons _ _ => simp
      have hts : t.set j a ≠ [] := by
        cases t with
        | nil => exact absurd hi (by simp)
        | cons _ _ => cases j <;> simp
      rw [List.set_cons_succ, pyJoin_cons x _ hts, pyJoin_cons x _ ht]
      intro he
      exact ih j a hi hne (strAppendLeftCancel _ _ _ he)

lemma rowParts_setField (r : HashRow) (f : HField) (v : PyVal) :
    rowParts (setField r f v) = (rowParts r).set (fieldIndex f) (canonPart v) := by
  cases f <;> rfl

lemma rowParts_getD (r : HashRow) (f : HField) :
    (rowParts r).getD (fieldIndex f) "" = canonPart (getField r f) := by
  cases f <;> rfl

lemma fieldIndex_lt (r : HashRow) (f : HField) : fieldIndex f < (rowParts r).length := by
  have h16 : (rowParts r).length = 16 := rfl
  rw [h16]
  cases f <;> decide

lemma canonPart_falsy {v : PyVal} (h : pyTruthy v = false) : canonPart v = "" := by
  simp [canonPart, h]

/-! ### Claims about the content hasher -/

/-- C1 (amended): hashing the same tuple twice yields the same digest;
a missing value is canonicalized to the empty string; the digest is SHA-256
of the parts joined with the fixed delimiter `"|"`; and changing any single
hashed field changes the SHA-256 input (hence the digest, barring a SHA-256
collision) whenever the new value's canonical string differs from the old
one — falsy values all canonicalize to `""`, which is the only way a
single-field change can leave the digest unchanged. -/
theorem sha256_rowhash_correct :
    (∀ r : HashRow, sha256_rowhash r = sha256_rowhash r)
    ∧ canonPart PyVal.none = ""
    ∧ (∀ r : HashRow, sha256_rowhash r = sha256Hex (pyJoin (rowParts r)))
    ∧ (∀ (r : HashRow) (f : HField) (v : PyVal),
        canonPart v ≠ canonPart (getField r f) →
        rowHashInput (setField r f v) ≠ rowHashInput r) := by
  refine ⟨fun _ => rfl, rfl, fun _ => rfl, ?_⟩
  intro r f v hne
  unfold rowHashInput
  rw [rowParts_setField]
  exact pyJoin_set_ne (rowParts r) (fieldIndex f) (canonPart v) (fieldIndex_lt r f)
    (by rw [rowParts_getD]; exact hne)

theorem sha256_rowhash_correct_witness :
    canonPart (PyVal.str "x") ≠ canonPart (getField sampleRow HField.serviceName)
    ∧ rowHashInput (setField sampleRow HField.serviceName (PyVal.str "x"))
      ≠ rowHashInput sampleRow :=
  ⟨by decide,
   sha256_rowhash_correct.2.2.2 sampleRow HField.serviceName (PyVal.str "x") (by decide)⟩

/-- C1 counterexample: changing the `service_name` field from `None` to the
empty string is a single-field change of value, yet the digest is provably
unchanged (both values are falsy, so both contribute `""` to the hash
input) — refuting "changing that single field's value yields a different
digest" as universally stated. -/
theorem sha256_rowhash_falsy_change_collides :
    getField sampleRow HField.serviceName ≠ PyVal.str ""
    ∧ sha256_rowhash (setField sampleRow HField.serviceName (PyVal.str ""))
      = sha256_rowhash sampleRow := by
  refine ⟨by decide, ?_⟩
  have h : rowHashInput (setField sampleRow HField.serviceName (PyVal.str ""))
      = rowHashInput sampleRow := by decide
  unfold sha256_rowhash
  rw [h]

/-- C9: every falsy hashed value — `None`, `0`, `0.0`, `False`, `""` —
contributes the empty string to the hash input via `v or ""`, and exchanging
two falsy values in one field keeps `sha256_rowhash` identical. -/
theorem falsy_fields_hash_empty :
    (∀ v : PyVal, pyTruthy v = false → canonPart v = "")
    ∧ canonPart PyVal.none = "" ∧ canonPart (PyVal.int 0) = ""
    ∧ canonPart (PyVal.float 0) = "" ∧ canonPart (PyVal.bool false) = ""
    ∧ canonPart (PyVal.str "") = ""
    ∧ (∀ (r : HashRow) (f : HField) (v v2 : PyVal),
        pyTruthy v = false → pyTruthy v2 = false →
        sha256_rowhash (setField r f v) = sha256_rowhash (setField r f v2)) := by
  refine ⟨fun v h => canonPart_falsy h, by decide, by decide, by decide, by decide, by decide, ?_⟩
  intro r f v v2 hv hv2
  unfold sha256_rowhash rowHashInput
  rw [rowParts_setField, rowParts_setField, canonPart_falsy hv, canonPart_falsy hv2]

theorem falsy_fields_hash_empty_witness :
    pyTruthy PyVal.none = false ∧ pyTruthy (PyVal.float 0) = false
    ∧ sha256_rowhash (setField sampleRow HField.startLongitude PyVal.none)
      = sha256_rowhash (setField sampleRow HField.startLongitude (PyVal.float 0)) :=
  ⟨rfl, by decide,
   falsy_fields_hash_empty.2.2.2.2.2.2 sampleRow HField.startLongitude
     PyVal.none (PyVal.float 0) rfl (by decide)⟩

/-! ### Claim about the extraction boundary -/

/-- C5: with no prior `lastFileDate` the boundary is today minus
`rollingDays` at exactly midnight; otherwise it is `lastFileDate` minus
`overlapDays`; in particular with an absent watermark and `rollingDays = 34`
the boundary is exactly today minus 34 days at midnight. -/
theorem compute_since_boundary :
    (∀ (today : Int) (r o : Nat),
      compute_since Option.none r o today = ⟨today - r, 0⟩)
    ∧ (∀ (w : PyDateTime) (r o : Nat) (today : Int),
      compute_since (some w) r o today = ⟨w.day - o, w.sod⟩)
    ∧ (∀ (today : Int) (o : Nat),
      compute_since Option.none 34 o today = ⟨today - 34, 0⟩) :=
  ⟨fun _ _ _ => rfl, fun _ _ _ _ => rfl, fun _ _ => rfl⟩

/-! ### Claims about the insert-only merge -/

/-- C2: for a merge that succeeds, the result is the old store with exactly
the staged rows whose hash is absent appended (so existing rows are never
updated or deleted), a staged row is inserted iff no existing canonical row
has its content hash, and merging the same batch again returns the same
store (the second merge inserts nothing). A merge can only fail when the
batch stages two fresh rows with the same hash, in which case the
unique-index violation aborts the transaction with no effect. -/
theorem upsert_insert_iff_idempotent (store batch s2 : List CRow)
    (h : upsert_legtrips_clean store batch = .ok s2) :
    s2 = store ++ freshRows store batch
    ∧ (∀ r : CRow, r ∈ freshRows store batch ↔
        r ∈ batch ∧ ∀ t ∈ store, t.row_hash_hex ≠ r.row_hash_hex)
    ∧ upsert_legtrips_clean s2 batch = .ok s2 := by
  unfold upsert_legtrips_clean at h
  split at h
  case isFalse => exact absurd h (by simp)
  case isTrue hnd =>
    injection h with h2
    subst h2
    refine ⟨rfl, ?_, ?_⟩
    · intro r
      simp [freshRows, List.mem_filter, List.any_eq_true, not_exists, and_comm]
    · have hempty : freshRows (store ++ freshRows store batch) batch = [] := by
        apply List.filter_eq_nil_iff.mpr
        intro r hr
        simp only [Bool.not_eq_true', Bool.not_eq_false]
        cases hcase : store.any (fun t => t.row_hash_hex == r.row_hash_hex) with
        | true =>
          obtain ⟨t, ht, hbeq⟩ := List.any_eq_true.mp hcase
          exact List.any_eq_true.mpr ⟨t, List.mem_append_left _ ht, hbeq⟩
        | false =>
          have hmem : r ∈ freshRows store batch :=
            List.mem_filter.mpr ⟨hr, by simp [hcase]⟩
          exact List.any_eq_true.mpr ⟨r, List.mem_append_right _ hmem, by simp⟩
      unfold upsert_legtrips_clean
      rw [hempty]
      simp [uniqueHashOK]

theorem upsert_insert_iff_idempotent_witness :
    upsert_legtrips_clean [crow "aa"] [crow "aa", crow "bb"] = .ok [crow "aa", crow "bb"]
    ∧ ([crow "aa", crow "bb"] = [crow "aa"] ++ freshRows [crow "aa"] [crow "aa", crow "bb"]
       ∧ (∀ r : CRow, r ∈ freshRows [crow "aa"] [crow "aa", crow "bb"] ↔
           r ∈ [crow "aa", crow "bb"] ∧ ∀ t ∈ [crow "aa"], t.row_hash_hex ≠ r.row_hash_hex)
       ∧ upsert_legtrips_clean [crow "aa", crow "bb"] [crow "aa", crow "bb"]
         = .ok [crow "aa", crow "bb"]) :=
  ⟨rfl, upsert_insert_iff_idempotent [crow "aa"] [crow "aa", crow "bb"]
    [crow "aa", crow "bb"] rfl⟩

lemma applyMergeRun_nodup (store batch : List CRow)
    (h : (store.map CRow.row_hash_hex).Nodup) :
    ((applyMergeRun store batch).map CRow.row_hash_hex).Nodup := by
  unfold applyMergeRun
  cases hm : upsert_legtrips_clean store batch with
  | error e => exact h
  | ok s2 =>
    unfold upsert_legtrips_clean at hm
    split at hm
    case isFalse => exact absurd hm (by simp)
    case isTrue hnd =>
      injection hm with h2
      subst h2
      rw [List.map_append]
      refine List.Nodup.append h hnd ?_
      intro a ha hb
      obtain ⟨t, ht, hta⟩ := List.mem_map.mp ha
      obtain ⟨r, hrf, hra⟩ := List.mem_map.mp hb
      have hno := (List.mem_filter.mp hrf).2
      simp only [Bool.not_eq_true', List.any_eq_false] at hno
      have hne2 : t.row_hash_hex ≠ r.row_hash_hex := by simpa using hno t ht
      exact hne2 (hta.trans hra.symm)

/-- C3: starting from a canonical store with pairwise-distinct content
hashes, any sequence of run-level merges preserves the invariant that no two
canonical rows share a content hash — including when a staged batch itself
contains two rows with equal hashes, in which case the unique-index
violation makes the merge roll back with no effect. -/
theorem canonical_store_hash_unique (batches : List (List CRow)) (store : List CRow)
    (h : (store.map CRow.row_hash_hex).Nodup) :
    ((batches.foldl applyMergeRun store).map CRow.row_hash_hex).Nodup := by
  induction batches generalizing store with
  | nil => exact h
  | cons b bs ih => exact ih (applyMergeRun store b) (applyMergeRun_nodup store b h)

theorem canonical_store_hash_unique_witness :
    (([] : List CRow).map CRow.row_hash_hex).Nodup
    ∧ (([[crow "aa", crow "aa"]].foldl applyMergeRun []).map CRow.row_hash_hex).Nodup :=
  ⟨by simp, canonical_store_hash_unique [[crow "aa", crow "aa"]] [] (by simp)⟩

/-! ### Claim about rollback and watermark persistence -/

/-- C4: if any stage of a run (extraction, transformation, merge, or the
aggregate refresh) fails, the transaction is rolled back and the watermark
state file is untouched: the durable state after the run equals the state
before it, with `lastFileDate` and `lastRunUtc` exactly as they were. The
state file is written only in the branch where the transaction committed. -/
theorem run_rollback_on_error (rolling overlap : Nat) (rawStore : List RawRow)
    (today nowUtc : Int) (fetchRes refreshRes : Except PErr Unit)
    (w w2 : PipeState) (e : PErr)
    (h : runPipeline rolling overlap rawStore today fetchRes refreshRes nowUtc w = (w2, some e)) :
    w2 = w ∧ w2.wm.lastFileDt = w.wm.lastFileDt ∧ w2.wm.lastRunUtc = w.wm.lastRunUtc := by
  have hw : w2 = w := by
    simp only [runPipeline] at h
    repeat' split at h
    all_goals simp only [Prod.mk.injEq] at h
    any_goals exact h.1.symm
    exact absurd h.2 (by simp)
  exact ⟨hw, by rw [hw], by rw [hw]⟩

theorem run_rollback_on_error_witness :
    runPipeline 34 5 [] 0 (Except.ok ()) (Except.error PErr.refreshFail) 7
      ⟨[crow "aa"], ⟨some ⟨3, 0⟩, some 5⟩⟩
      = (⟨[crow "aa"], ⟨some ⟨3, 0⟩, some 5⟩⟩, some PErr.refreshFail)
    ∧ (⟨[crow "aa"], ⟨some ⟨3, 0⟩, some 5⟩⟩ : PipeState) = ⟨[crow "aa"], ⟨some ⟨3, 0⟩, some 5⟩⟩
    ∧ (⟨[crow "aa"], ⟨some ⟨3, 0⟩, some 5⟩⟩ : PipeState).wm.lastFileDt = some ⟨3, 0⟩ := by
  refine ⟨rfl, ?_, rfl⟩
  exact (run_rollback_on_error 34 5 [] 0 7 (Except.ok ()) (Except.error PErr.refreshFail)
    ⟨[crow "aa"], ⟨some ⟨3, 0⟩, some 5⟩⟩ ⟨[crow "aa"], ⟨some ⟨3, 0⟩, some 5⟩⟩
    PErr.refreshFail rfl).1

/-! ### Claim about watermark monotonicity -/

lemma dtLE_refl (a : PyDateTime) : dtLE a a := Or.inr ⟨rfl, le_refl _⟩

lemma dtLE_trans {a b c : PyDateTime} (h1 : dtLE a b) (h2 : dtLE b c) : dtLE a c := by
  unfold dtLE at *
  omega

lemma dtLE_total (a b : PyDateTime) : dtLE a b ∨ dtLE b a := by
  unfold dtLE
  omega

lemma dtLE_dtMax_left (a b : PyDateTime) : dtLE a (dtMax a b) := by
  unfold dtMax
  split
  case isTrue h => exact of_decide_eq_true h
  case isFalse h => exact dtLE_refl a

lemma dtLE_dtMax_right (a b : PyDateTime) : dtLE b (dtMax a b) := by
  unfold dtMax
  split
  case isTrue h => exact dtLE_refl b
  case isFalse h =>
    have hn : ¬ dtLE a b := by simpa [dtLEb] using h
    rcases dtLE_total a b with h1 | h1
    · exact absurd h1 hn
    · exact h1

lemma dtMax_mem (a b : PyDateTime) : dtMax a b = a ∨ dtMax a b = b := by
  unfold dtMax
  split
  · exact Or.inr rfl
  · exact Or.inl rfl

lemma foldl_dtMax_le : ∀ (ds : List PyDateTime) (d x : PyDateTime),
    x ∈ d :: ds → dtLE x (ds.foldl dtMax d) := by
  intro ds
  induction ds with
  | nil =>
    intro d x hx
    have : x = d := by simpa using hx
    subst this
    exact dtLE_refl x
  | cons y ys ih =>
    intro d x hx
    simp only [List.foldl_cons]
    rcases List.mem_cons.mp hx with rfl | hx2
    · exact dtLE_trans (dtLE_dtMax_left x y) (ih (dtMax x y) _ (List.mem_cons_self _ _))
    · rcases List.mem_cons.mp hx2 with rfl | hx3
      · exact dtLE_trans (dtLE_dtMax_right d x) (ih (dtMax d x) _ (List.mem_cons_self _ _))
      · exact ih (dtMax d y) x (List.mem_cons_of_mem _ hx3)

lemma foldl_dtMax_mem : ∀ (ds : List PyDateTime) (d : PyDateTime),
    ds.foldl dtMax d ∈ d :: ds := by
  intro ds
  induction ds with
  | nil => intro d; simp
  | cons y ys ih =>
    intro d
    simp only [List.foldl_cons]
    rcases List.mem_cons.mp (ih (dtMax d y)) with heq | hmem
    · rcases dtMax_mem d y with h | h
      · rw [heq, h]; exact List.mem_cons_self _ _
      · rw [heq, h]; exact List.mem_cons_of_mem _ (List.mem_cons_self _ _)
    · exact List.mem_cons_of_mem _ (List.mem_cons_of_mem _ hmem)

lemma wmLE_refl (w : Option PyDateTime) : wmLE w w :=
  fun d h => ⟨d, h, dtLE_refl d⟩

lemma wmLE_trans {a b c : Option PyDateTime} (h1 : wmLE a b) (h2 : wmLE b c) : wmLE a c := by
  intro d hd
  obtain ⟨e, he, hde⟩ := h1 d hd
  obtain ⟨f, hf, hef⟩ := h2 e he
  exact ⟨f, hf, dtLE_trans hde hef⟩

lemma runWatermark_step (store : List RawRow) (today : Int) (ro ov : Nat)
    (w : Option PyDateTime) (hw : Witnessed store w) :
    wmLE w (runWatermark store today ro ov w)
    ∧ Witnessed store (runWatermark store today ro ov w) := by
  unfold runWatermark nextLastFileDate
  set raw := fetch_new_raw store (compute_since w ro ov today) with hraw
  by_cases hempty : raw.isEmpty = true
  · rw [if_pos hempty]
    exact ⟨wmLE_refl w, hw⟩
  · rw [if_neg hempty]
    cases hfm : raw.filterMap rowFileDate with
    | nil =>
      unfold maxParsed
      rw [hfm]
      exact ⟨wmLE_refl w, hw⟩
    | cons d ds =>
      unfold maxParsed
      rw [hfm]
      constructor
      · intro D hD
        refine ⟨ds.foldl dtMax d, rfl, ?_⟩
        obtain ⟨r0, hr0, hdate⟩ := hw D hD
        have hsince : dtLE (compute_since w ro ov today) D := by
          rw [hD]
          simp only [compute_since, subDays, dtLE]
          omega
        have hr0raw : r0 ∈ raw := by
          rw [hraw]
          refine List.mem_filter.mpr ⟨hr0, ?_⟩
          rw [hdate]
          exact decide_eq_true hsince
        have hDmem : D ∈ d :: ds := by
          rw [← hfm]
          exact List.mem_filterMap.mpr ⟨r0, hr0raw, hdate⟩
        exact foldl_dtMax_le ds d D hDmem
      · intro D hD
        injection hD with hDm
        subst hDm
        have hmem := foldl_dtMax_mem ds d
        rw [← hfm] at hmem
        obtain ⟨r, hr, hrd⟩ := List.mem_filterMap.mp hmem
        rw [hraw] at hr
        exact ⟨r, List.mem_of_mem_filter hr, hrd⟩

/-- C6: over an append-only raw store, and starting from an absent watermark
or any watermark witnessed by a stored row (as every pipeline-written
watermark is), the watermark never decreases across any sequence of
successful runs; and a run whose extraction returns zero rows leaves
`last_file_dt` exactly unchanged. -/
theorem watermark_monotone (ro ov : Nat) :
    (∀ (steps : List RunStep) (w : Option PyDateTime),
      WitnessedIn w steps → AppendChain steps →
      wmLE w (runSeqWatermark ro ov w steps))
    ∧ (∀ (store : List RawRow) (today : Int) (w : Option PyDateTime),
      fetch_new_raw store (compute_since w ro ov today) = [] →
      runWatermark store today ro ov w = w) := by
  constructor
  · intro steps
    induction steps with
    | nil => intro w _ _; exact wmLE_refl w
    | cons s rest ih =>
      intro w hwit hchain
      have hstep := runWatermark_step s.rawStore s.today ro ov w hwit
      have hrest : wmLE (runWatermark s.rawStore s.today ro ov w)
          (runSeqWatermark ro ov (runWatermark s.rawStore s.today ro ov w) rest) := by
        apply ih
        · cases rest with
          | nil => trivial
          | cons s2 t =>
            have hsub : s.rawStore ⊆ s2.rawStore := (List.chain'_cons.mp hchain).1
            intro D hD
            obtain ⟨r, hr, hrd⟩ := hstep.2 D hD
            exact ⟨r, hsub hr, hrd⟩
        · cases rest with
          | nil => exact List.chain'_nil
          | cons s2 t => exact (List.chain'_cons.mp hchain).2
      exact wmLE_trans hstep.1 hrest
  · intro store today w hfetch
    unfold runWatermark nextLastFileDate
    rw [hfetch]
    simp

theorem watermark_monotone_witness :
    WitnessedIn Option.none [stepA, stepB]
    ∧ AppendChain [stepA, stepB]
    ∧ wmLE Option.none (runSeqWatermark 34 5 Option.none [stepA, stepB]) := by
  have hwit : WitnessedIn Option.none [stepA, stepB] := fun _ hD => nomatch hD
  have hchain : AppendChain [stepA, stepB] := by
    refine List.chain'_cons.mpr ⟨?_, List.chain'_singleton _⟩
    intro x hx
    simp only [stepA] at hx
    simp only [stepB]
    rcases hx with h
    simp_all
  exact ⟨hwit, hchain, (watermark_monotone 34 5).1 [stepA, stepB] Option.none hwit hchain⟩

/-! ### Claims about per-file enrichment -/

/-- C7 counterexample: a file whose CSV parses but which is structurally
missing a coordinate column makes the whole ingest run abort with the
`KeyError` (the `try` in the loop only wraps `pd.read_csv`), so the next
file — which alone ingests fine — is never processed; refuting "the file is
skipped and the run continues". -/
theorem missing_coord_column_counterexample :
    ingestRun [⟨"tapped_trip_view_legs_2024-01-05.csv", some badFrame⟩,
               ⟨"tapped_trip_view_legs_2024-01-06.csv", some goodFrame⟩] []
      = .error EErr.missingColumn
    ∧ ingestRun [⟨"tapped_trip_view_legs_2024-01-06.csv", some goodFrame⟩] [] = .ok 1 :=
  ⟨rfl, rfl⟩

/-- C7 (amended): a structurally missing coordinate column is fatal for the
file and for the whole ingest run — the exception propagates out of the
per-file loop, so no later file is processed; only a CSV parse failure is
caught, skipped and the run continues with the next file. -/
theorem missing_coord_column_aborts_run
    (fname : String) (fr : Frame) (rest : List SrcFile) (layer : List AreaPoly)
    (h : ¬ coordCols.all (fun c => fr.cols.contains c) = true) :
    ingestRun (⟨fname, some fr⟩ :: rest) layer = .error EErr.missingColumn
    ∧ (∀ gname : String, ingestRun (⟨gname, Option.none⟩ :: rest) layer = ingestRun rest layer) := by
  constructor
  · have he : enrich_file_dataframe fr layer = .error EErr.missingColumn := by
      unfold enrich_file_dataframe
      rw [if_neg h]
    simp only [ingestRun, ingestRunAux, he]
  · intro gname
    rfl

theorem missing_coord_column_aborts_run_witness :
    (¬ coordCols.all (fun c => badFrame.cols.contains c) = true)
    ∧ ingestRun [⟨"f1.csv", some badFrame⟩] [] = .error EErr.missingColumn := by
  have h : ¬ coordCols.all (fun c => badFrame.cols.contains c) = true := by decide
  exact ⟨h, (missing_coord_column_aborts_run "f1.csv" badFrame [] [] h).1⟩

/-- C8 counterexample: a row whose origin point lies within two polygons of
the layer makes the left spatial join return two rows for that point, and
the column assignment fails with the length-mismatch `ValueError` —
enrichment of the file fails instead of resolving the tie to the
earlier-stored polygon's code (with a single containing polygon the same
file enriches fine and gets that polygon's code). -/
theorem overlapping_polygons_fail_enrichment :
    enrich_file_dataframe goodFrame [allPoly "A", allPoly "B"] = .error EErr.lenMismatch
    ∧ enrich_file_dataframe goodFrame [allPoly "A"] = .ok [⟨goodCsvRow, some "A", some "A"⟩] :=
  ⟨rfl, rfl⟩

lemma find?_eq_head_filter (p : α → Bool) : ∀ l : List α, l.find? p = (l.filter p).head? := by
  intro l
  induction l with
  | nil => rfl
  | cons x t ih =>
    by_cases hx : p x = true
    · rw [List.find?_cons_of_pos t hx, List.filter_cons_of_pos hx]
      rfl
    · rw [List.find?_cons_of_neg t hx, List.filter_cons_of_neg hx, ih]

lemma zip_map_self (l : List α) (fb : α → β) (fc : α → γ) :
    l.zip ((l.map fb).zip (l.map fc)) = l.map (fun a => (a, fb a, fc a)) := by
  induction l with
  | nil => rfl
  | cons x t ih => simp [ih]

/-- C8 (amended): when every point is contained in at most one polygon, the
join assigns each point the code of the first (hence unique) polygon of the
layer containing it under the strict `within` predicate, and null when none
contains it — in particular a row with all four coordinates present and no
containing polygon appears in the enriched output with null area codes. A
point within two polygons instead makes enrichment fail (see the
counterexample). -/
theorem area_lookup_first_or_null :
    (∀ (pts : List PPoint) (layer : List AreaPoly),
      (∀ p ∈ pts, (matchesFor layer p).length ≤ 1) →
      sjoinLeftCodes pts layer
        = pts.map (fun p => (layer.find? (fun a => a.containsQ p)).map AreaPoly.code))
    ∧ (∀ (f : Frame) (layer : List AreaPoly),
        coordCols.all (fun c => f.cols.contains c) = true →
        (∀ a ∈ layer, ∀ p : PPoint, a.containsQ p = false) →
        enrich_file_dataframe f layer
          = .ok ((f.rows.filter coordsOK).map (fun r => ⟨r, Option.none, Option.none⟩))) := by
  have hpt1 : ∀ (pts : List PPoint) (layer : List AreaPoly),
      (∀ p ∈ pts, (matchesFor layer p).length ≤ 1) →
      sjoinLeftCodes pts layer
        = pts.map (fun p => (layer.find? (fun a => a.containsQ p)).map AreaPoly.code) := by
    intro pts layer h1
    induction pts with
    | nil => rfl
    | cons p ps ih =>
      have hp := h1 p (List.mem_cons_self _ _)
      have hrest := ih (fun q hq => h1 q (List.mem_cons_of_mem _ hq))
      simp only [sjoinLeftCodes] at hrest
      cases hm : matchesFor layer p with
      | nil =>
        have hf : layer.find? (fun a => a.containsQ p) = Option.none := by
          unfold matchesFor at hm
          rw [find?_eq_head_filter, hm]
          rfl
        simp only [sjoinLeftCodes, List.map_cons, List.flatten_cons, hm, hf, Option.map_none']
        rw [hrest]
        rfl
      | cons m ms =>
        cases ms with
        | cons m2 t =>
          rw [hm] at hp
          simp at hp
        | nil =>
          have hf : layer.find? (fun a => a.containsQ p) = some m := by
            unfold matchesFor at hm
            rw [find?_eq_head_filter, hm]
            rfl
          simp only [sjoinLeftCodes, List.map_cons, List.flatten_cons, hm, hf, Option.map_some',
            List.map_nil]
          rw [hrest]
          rfl
  refine ⟨hpt1, ?_⟩
  intro f layer hcols hnone
  have hmatch : ∀ p : PPoint, matchesFor layer p = [] := by
    intro p
    unfold matchesFor
    exact List.filter_eq_nil_iff.mpr (fun a ha => by simp [hnone a ha])
  have hle : ∀ (pts : List PPoint), ∀ p ∈ pts, (matchesFor layer p).length ≤ 1 := by
    intro pts p _
    rw [hmatch p]
    decide
  have hsj : ∀ pts : List PPoint,
      sjoinLeftCodes pts layer = pts.map (fun _ => (Option.none : Option String)) := by
    intro pts
    rw [hpt1 pts layer (hle pts)]
    refine List.map_congr_left ?_
    intro p _
    have : layer.find? (fun a => a.containsQ p) = Option.none := by
      rw [find?_eq_head_filter]
      unfold matchesFor at hmatch
      rw [hmatch p]
      rfl
    rw [this]
    rfl
  unfold enrich_file_dataframe
  rw [if_pos hcols]
  by_cases hk : (f.rows.filter coordsOK).isEmpty = true
  · rw [if_pos hk]
    have hnil : f.rows.filter coordsOK = [] := by
      cases hc : f.rows.filter coordsOK with
      | nil => rfl
      | cons a t => rw [hc] at hk; simp at hk
    rw [hnil]
    rfl
  · rw [if_neg hk]
    rw [hsj ((f.rows.filter coordsOK).map origPoint), hsj ((f.rows.filter coordsOK).map destPoint)]
    simp only [List.map_map, List.length_map, if_true]
    rw [show ((f.rows.filter coordsOK).map ((fun _ => (Option.none : Option String)) ∘ origPoint))
        = (f.rows.filter coordsOK).map (fun _ => (Option.none : Option String)) from
        List.map_congr_left (fun a _ => rfl)]
    rw [show ((f.rows.filter coordsOK).map ((fun _ => (Option.none : Option String)) ∘ destPoint))
        = (f.rows.filter coordsOK).map (fun _ => (Option.none : Option String)) from
        List.map_congr_left (fun a _ => rfl)]
    rw [zip_map_self]
    simp only [List.map_map]
    rfl

theorem area_lookup_first_or_null_witness :
    (∀ p ∈ [((1 : ℚ), (2 : ℚ))], (matchesFor [allPoly "A"] p).length ≤ 1)
    ∧ sjoinLeftCodes [((1 : ℚ), (2 : ℚ))] [allPoly "A"]
      = [((1 : ℚ), (2 : ℚ))].map
          (fun p => (([allPoly "A"]).find? (fun a => a.containsQ p)).map AreaPoly.code) := by
  have h1 : ∀ p ∈ [((1 : ℚ), (2 : ℚ))], (matchesFor [allPoly "A"] p).length ≤ 1 := by
    intro p hp
    have hp2 : p = ((1 : ℚ), (2 : ℚ)) := by simpa using hp
    subst hp2
    decide
  exact ⟨h1, area_lookup_first_or_null.1 _ _ h1⟩

/-! ### Claim about hashing raw versus normalized timestamps -/

set_option maxRecDepth 16000

/-- C10: the content hash is computed over the raw extracted `start_time`
value, not over the normalized naive-UTC `start_time_utc` that is persisted:
two raw rows whose time strings differ only by the `T` separator parse to
the same instant — the canonical rows carry identical persisted
`start_time_utc` — yet they receive different SHA-256 digests and the merge
inserts both into the canonical store. -/
theorem hash_uses_raw_times :
    (rawTimeRow "2024-01-05 06:00:00").start_time ≠ (rawTimeRow "2024-01-05T06:00:00").start_time
    ∧ cleanedPair.length = 2
    ∧ (cleanedPair.getD 0 (crow "")).start_time_utc = (cleanedPair.getD 1 (crow "")).start_time_utc
    ∧ (cleanedPair.getD 0 (crow "")).start_time_utc = some ⟨daysFromCivil 2024 1 5, 21600⟩
    ∧ (cleanedPair.getD 0 (crow "")).row_hash_hex ≠ (cleanedPair.getD 1 (crow "")).row_hash_hex
    ∧ upsert_legtrips_clean [] cleanedPair = .ok cleanedPair :=
  ⟨by decide, by decide, by decide, by decide, by decide, rfl⟩
